import Mathlib

/-!
Verification of the streaming inference client of FunCyRanger/AI4All.

The development shallowly embeds the functional core of the repository:

* `streamChat` and its decoding loop (webui `src/api.ts`, the frame decoder);
* the chat orchestrator `sendMessage`, its live telemetry ticker and its
  finalisation (webui `src/App.tsx`);
* the status-refresh and system-stats polling (`refreshStatus` and the
  stats effect of `App.tsx`);
* the one-time starter-grant flow of the initial effect of `App.tsx`.

External library behaviour is modelled explicitly: the JavaScript string
primitives `split`, `startsWith`, `slice` and `trim` become structural
functions on the character list of a `String`; `JSON.parse` composed with
the `choices[0].delta.content` extraction becomes an abstract parameter
of type `ParseFn`; wall-clock times and JavaScript numbers become
rationals; `setInterval` schedules become arithmetic predicates on
discrete time.
-/

namespace AI4All

/-! ## Models of the JavaScript string primitives -/

/-- Model of `text.split(sep)` for a one-character separator, on character
lists: always returns at least one (possibly empty) segment, exactly like
the JavaScript `String.prototype.split`. -/
def jsSplitChars (sep : Char) : List Char → List (List Char)
  | [] => [[]]
  | c :: rest =>
    let r := jsSplitChars sep rest
    if c = sep then [] :: r
    else
      match r with
      | [] => [[c]]
      | seg :: segs => (c :: seg) :: segs

/-- Model of `text.split(newline)`. -/
def jsSplitLines (s : String) : List String :=
  (jsSplitChars '\n' s.data).map fun cs => String.mk cs

/-- Model of `line.startsWith(p)`. -/
def jsStartsWith (s p : String) : Bool :=
  p.data.isPrefixOf s.data

/-- Model of `line.slice(n)` (drop the first `n` characters). -/
def jsSlice (s : String) (n : Nat) : String :=
  String.mk (s.data.drop n)

/-- Model of `payload.trim()`: strip whitespace from both ends. -/
def jsTrim (s : String) : String :=
  String.mk (((s.data.dropWhile Char.isWhitespace).reverse.dropWhile
    Char.isWhitespace).reverse)

/-! ## Frame decoder (src/api.ts, streamChat) -/

/-- Model of `JSON.parse(payload)` followed by the extraction
`chunk?.choices?.[0]?.delta?.content` in `streamChat`:
`none` means `JSON.parse` throws (the empty `catch` branch),
`some none` means the payload parses but carries no content string, and
`some (some t)` means the payload parses and the nested incremental text
field is the string `t`. -/
abbrev ParseFn := String → Option (Option String)

/-- The inner loop `for (const line of text.split(newline))` of
`streamChat` (src/api.ts lines 69 to 78), embedded over one list of lines.
Returns the tokens yielded from these lines together with a flag telling
whether the `[DONE]` sentinel was reached (the `return` of the
generator). Lines without the `data: ` prefix are skipped; the payload is
the line after the 6-character prefix, trimmed; unparseable payloads and
empty content strings (falsy in JavaScript) yield nothing. -/
def streamChatLines (parse : ParseFn) : List String → List String × Bool
  | [] => ([], false)
  | line :: rest =>
    if jsStartsWith line "data: " then
      let payload := jsTrim (jsSlice line 6)
      if payload = "[DONE]" then ([], true)
      else
        match parse payload with
        | none => streamChatLines parse rest
        | some none => streamChatLines parse rest
        | some (some token) =>
          if token = "" then streamChatLines parse rest
          else
            let r := streamChatLines parse rest
            (token :: r.1, r.2)
    else streamChatLines parse rest

/-- The outer loop `while (true) do reader.read() ...` of `streamChat`
(src/api.ts lines 65 to 79): every received chunk is decoded and split on
newlines on its own; there is no buffer carrying a partial line from one
chunk into the next.  When a chunk reaches the sentinel the generator
returns and the remaining chunks are never read. -/
def streamChatChunks (parse : ParseFn) : List String → List String
  | [] => []
  | chunk :: rest =>
    let r := streamChatLines parse (jsSplitLines chunk)
    if r.2 then r.1 else r.1 ++ streamChatChunks parse rest

/-- Error body of a non-2xx response: `r.json()` resolving to an object
whose `detail` field may be absent. -/
structure ErrorBody where
  detail : Option String

/-- The initiating HTTP response as far as `streamChat` inspects it:
`ok`, `statusText`, and the body, where `body = none` models a body that
`r.json()` rejects on (not parseable as JSON). -/
structure HttpResponse where
  ok : Bool
  statusText : String
  body : Option ErrorBody

/-- Whole-function embedding of `streamChat` (src/api.ts lines 46 to 80):
on a non-ok response the error payload is resolved (falling back to
`detail := statusText` when the body is not parseable) and the call fails
with `err.detail ?? "Request failed"`; otherwise the chunk loop runs and
the yielded tokens are returned. -/
def streamChat (parse : ParseFn) (r : HttpResponse) (chunks : List String) :
    Except String (List String) :=
  if !r.ok then
    let err : ErrorBody :=
      match r.body with
      | some e => e
      | none => { detail := some r.statusText }
    .error (err.detail.getD "Request failed")
  else
    .ok (streamChatChunks parse chunks)

/-! ## Specification side of the decoder -/

/-- A line that terminates the stream: `data: `-prefixed and its trimmed
payload is the literal sentinel. -/
def isSentinel (line : String) : Bool :=
  jsStartsWith line "data: " && decide (jsTrim (jsSlice line 6) = "[DONE]")

/-- Spec-side reading of one event line: the non-empty content of a
well-formed, non-sentinel `data: ` event, and `none` for everything the
decoder skips. -/
def eventContent (parse : ParseFn) (line : String) : Option String :=
  if jsStartsWith line "data: " = true ∧ jsTrim (jsSlice line 6) ≠ "[DONE]" then
    match parse (jsTrim (jsSlice line 6)) with
    | some (some t) => if t = "" then none else some t
    | _ => none
  else none

/-- Spec-side token sequence of an event-line sequence: the contents of
the well-formed events strictly before the first sentinel line. -/
def specTokens (parse : ParseFn) (lines : List String) : List String :=
  (lines.takeWhile fun l => !isSentinel l).filterMap (eventContent parse)

theorem all_not_eq_not_any {α : Type} (q : α → Bool) :
    ∀ l : List α, (l.all fun x => !q x) = !l.any q := by
  intro l
  induction l with
  | nil => rfl
  | cons a t ih => simp [List.all_cons, List.any_cons, ih, Bool.not_or]

theorem takeWhile_append_of_all {α : Type} (p : α → Bool) :
    ∀ l1 l2 : List α, l1.all p = true →
      (l1 ++ l2).takeWhile p = l1 ++ l2.takeWhile p := by
  intro l1 l2 h
  induction l1 with
  | nil => simp
  | cons a t ih =>
    simp only [List.all_cons, Bool.and_eq_true] at h
    simp [List.takeWhile_cons, h.1, ih h.2]

theorem takeWhile_append_of_not_all {α : Type} (p : α → Bool) :
    ∀ l1 l2 : List α, l1.all p = false →
      (l1 ++ l2).takeWhile p = l1.takeWhile p := by
  intro l1 l2 h
  induction l1 with
  | nil => simp at h
  | cons a t ih =>
    by_cases hp : p a
    · simp only [List.all_cons, hp, Bool.true_and] at h
      simp [List.takeWhile_cons, hp, ih h]
    · simp [List.takeWhile_cons, hp]

theorem takeWhile_eq_self_of_all {α : Type} (p : α → Bool) :
    ∀ l : List α, l.all p = true → l.takeWhile p = l := by
  intro l h
  induction l with
  | nil => rfl
  | cons a t ih =>
    simp only [List.all_cons, Bool.and_eq_true] at h
    simp [List.takeWhile_cons, h.1, ih h.2]

/-- The line loop agrees with the spec-side reading: the yielded tokens
are exactly the event contents strictly before the first sentinel, and
the returned flag records whether a sentinel line occurred. -/
theorem streamChatLines_spec (parse : ParseFn) :
    ∀ lines : List String,
      streamChatLines parse lines =
        ((lines.takeWhile fun l => !isSentinel l).filterMap (eventContent parse),
          lines.any isSentinel) := by
  intro lines
  induction lines with
  | nil => simp [streamChatLines, List.takeWhile, List.any]
  | cons line rest ih =>
    by_cases hp : jsStartsWith line "data: "
    · by_cases hd : jsTrim (jsSlice line 6) = "[DONE]"
      · have hs : isSentinel line = true := by simp [isSentinel, hp, hd]
        simp [streamChatLines, hp, hd, hs, List.takeWhile_cons, List.any_cons]
      · have hs : isSentinel line = false := by simp [isSentinel, hd]
        have hev : eventContent parse line =
            (match parse (jsTrim (jsSlice line 6)) with
              | some (some t) => if t = "" then none else some t
              | _ => none) := by
          simp [eventContent, hp, hd]
        cases hpc : parse (jsTrim (jsSlice line 6)) with
        | none =>
          simp [streamChatLines, hp, hd, hpc, hs, List.takeWhile_cons,
            List.any_cons, ih, List.filterMap_cons, hev]
        | some o =>
          cases o with
          | none =>
            simp [streamChatLines, hp, hd, hpc, hs, List.takeWhile_cons,
              List.any_cons, ih, List.filterMap_cons, hev]
          | some t =>
            by_cases ht : t = ""
            · simp [streamChatLines, hp, hd, hpc, ht, hs, List.takeWhile_cons,
                List.any_cons, ih, List.filterMap_cons, hev]
            · simp [streamChatLines, hp, hd, hpc, ht, hs, List.takeWhile_cons,
                List.any_cons, ih, List.filterMap_cons, hev]
    · have hs : isSentinel line = false := by simp [isSentinel, hp]
      have hev : eventContent parse line = none := by simp [eventContent, hp]
      simp [streamChatLines, hp, hs, List.takeWhile_cons, List.any_cons, ih,
        List.filterMap_cons, hev]

/-- Claim C2: round trip with sentinel cut-off.  For every delivery of the
byte stream as a list of chunks, the tokens yielded by the decoding loop
of streamChat are exactly the non-empty content values of the well-formed
`data: ` events that precede the first `[DONE]` sentinel in the line
sequence the loop actually sees; once the sentinel line is read the
sequence terminates and no later chunk contributes; unprefixed lines and
unparseable payloads are skipped without affecting the remaining tokens
or their order.  The stated claim about concatenation follows from this
list equality by congruence of `String.join`. -/
theorem streamChat_round_trip (parse : ParseFn) (chunks : List String) :
    streamChatChunks parse chunks =
      specTokens parse ((chunks.map jsSplitLines).flatten) := by
  induction chunks with
  | nil => simp [streamChatChunks, specTokens]
  | cons c rest ih =>
    have hlines := streamChatLines_spec parse (jsSplitLines c)
    simp only [streamChatChunks, hlines, List.map_cons, List.flatten_cons,
      specTokens]
    by_cases hb : (jsSplitLines c).any isSentinel
    · have hall : ((jsSplitLines c).all fun l => !isSentinel l) = false := by
        rw [all_not_eq_not_any, hb]
        rfl
      rw [if_pos hb, takeWhile_append_of_not_all _ _ _ hall]
    · have hbf : (jsSplitLines c).any isSentinel = false := by
        simpa using hb
      have hall : ((jsSplitLines c).all fun l => !isSentinel l) = true := by
        rw [all_not_eq_not_any, hbf]
        rfl
      rw [if_neg (by rw [hbf]; exact Bool.false_ne_true),
        takeWhile_append_of_all _ _ _ hall, List.filterMap_append,
        takeWhile_eq_self_of_all _ _ hall, ih]
      rfl

/-! ## Claim C1: chunking invariance fails on the code -/

/-- The JSON payload of spec scenario 1 (braces written escaped):
`\x7b"choices":[\x7b"delta":\x7b"content":"Hi"\x7d\x7d]\x7d`. -/
def jsonHi : String :=
  "\x7b\"choices\":[\x7b\"delta\":\x7b\"content\":\"Hi\"\x7d\x7d]\x7d"

/-- Concrete model of `JSON.parse` plus content extraction for the single
payload `jsonHi`: exactly that string parses and carries content `Hi`;
every other string (in particular every proper fragment of an event line)
throws. -/
def parseHi : ParseFn := fun s => if s = jsonHi then some (some "Hi") else none

/-- One well-formed event stream carrying the single token `Hi`. -/
def streamHi : String := "data: " ++ jsonHi ++ "\n\n"

/-- The 1-byte chunking of a stream: one chunk per character. -/
def oneByteChunks (s : String) : List String :=
  s.data.map fun c => String.mk [c]

/-- Claim C1 fails on the code: decoding the well-formed event stream
`streamHi` as one chunk yields `[Hi]`, but decoding the very same bytes
split into 1-byte chunks yields no token at all, because the loop splits
every chunk on newlines independently and keeps no buffer across chunks
(src/api.ts lines 65 to 79), so the fragmented `data: ` line is never
reassembled.  This contradicts the specification of the frame decoder
(spec sections 4.1 and 8) at a concrete input. -/
theorem streamChat_chunking_bug :
    streamChatChunks parseHi [streamHi] = ["Hi"] ∧
      streamChatChunks parseHi (oneByteChunks streamHi) = [] := by
  constructor
  · rfl
  · rfl

/-! ## Claim C3: failure path of streamChat -/

/-- Claim C3: when the initiating response is not ok, streamChat fails and
never yields a token (src/api.ts lines 57 to 60): the result is an error
whose message is the `detail` field of the response body used verbatim
when the body parses and carries one, and the HTTP status text when the
body is not parseable as JSON. -/
theorem streamChat_failure (parse : ParseFn) (r : HttpResponse)
    (chunks : List String) (h : r.ok = false) :
    (∀ toks, streamChat parse r chunks ≠ .ok toks) ∧
      (∀ b d, r.body = some b → b.detail = some d →
        streamChat parse r chunks = .error d) ∧
      (r.body = none → streamChat parse r chunks = .error r.statusText) := by
  refine ⟨?_, ?_, ?_⟩
  · intro toks hok
    simp [streamChat, h] at hok
  · intro b d hb hd
    simp [streamChat, h, hb, hd, Option.getD]
  · intro hb
    simp [streamChat, h, hb, Option.getD]

/-- Witness for claim C3 at spec scenario 4: a 500 response whose body
carries `detail = model not found` fails with exactly that message. -/
theorem streamChat_failure_witness :
    streamChat parseHi
      { ok := false, statusText := "Internal Server Error",
        body := some { detail := some "model not found" } } [streamHi] =
      .error "model not found" :=
  (streamChat_failure parseHi
    { ok := false, statusText := "Internal Server Error",
      body := some { detail := some "model not found" } } [streamHi]
    rfl).2.1 { detail := some "model not found" } "model not found" rfl rfl

/-! ## Data model of the orchestrator (webui/src/App.tsx) -/

/-- Message roles of the chat transcript. -/
inductive Role
  | user
  | assistant
  | system
deriving DecidableEq

/-- A plain chat message as sent to the completion endpoint. -/
structure Message where
  role : Role
  content : String
deriving DecidableEq

/-- The final per-message metadata snapshot attached at turn completion
(`meta` of `MsgWithMeta` in App.tsx). -/
structure MsgMeta where
  tokensGenerated : Nat
  tokensPerSec : ℚ
  elapsedSec : ℚ
  model : String
deriving DecidableEq

/-- A transcript entry (`MsgWithMeta` in App.tsx). -/
structure MsgWithMeta where
  role : Role
  content : String
  loading : Bool := false
  meta : Option MsgMeta := none
deriving DecidableEq

/-- Coarse progress indicator of a turn. -/
inductive Phase
  | loading
  | thinking
  | generating
deriving DecidableEq

/-- The live telemetry record (`InferenceState` in App.tsx). -/
structure InferenceState where
  active : Bool
  model : String
  tokensGenerated : Nat
  tokensPerSec : ℚ
  elapsedSec : ℚ
  phase : Phase
deriving DecidableEq

/-- The telemetry value installed by `useState` at application start. -/
def idleInference : InferenceState :=
  { active := false, model := "", tokensGenerated := 0, tokensPerSec := 0,
    elapsedSec := 0, phase := .loading }

/-- The telemetry record installed by `sendMessage` when a turn starts. -/
def initialInference (model : String) : InferenceState :=
  { active := true, model := model, tokensGenerated := 0, tokensPerSec := 0,
    elapsedSec := 0, phase := .loading }

/-- The slice of App state that `sendMessage`, the ticker and the turn
consumer read and write: the transcript, the input box, the in-flight
flag, the telemetry record, and the two shared refs `startTimeRef` and
`tokenCountRef`.  Wall-clock instants are rationals standing for
`Date.now()` milliseconds. -/
structure AppState where
  messages : List MsgWithMeta
  input : String
  streaming : Bool
  inference : InferenceState
  startTime : ℚ
  tokenCount : Nat
  model : String
  temp : ℚ
deriving DecidableEq

/-- The request body posted to `/v1/chat/completions`. -/
structure ChatRequest where
  model : String
  messages : List Message
  temperature : ℚ
deriving DecidableEq

/-- Forget the UI-only fields of a transcript entry, as the spread into
`history` does. -/
def toMessage (m : MsgWithMeta) : Message :=
  { role := m.role, content := m.content }

/-- The synchronous prelude of `sendMessage` (App.tsx lines 518 to 536):
trim the input; if it is empty or a turn is already streaming, return
without doing anything; otherwise append the user message and the loading
placeholder, clear the input, set the in-flight flag, reset the shared
wall-clock and token-counter refs, install a fresh telemetry record, and
issue the single chat request carrying the model, the history and the
temperature. -/
def sendMessage (now : ℚ) (s : AppState) : AppState × Option ChatRequest :=
  let text := jsTrim s.input
  if text = "" ∨ s.streaming = true then (s, none)
  else
    let userMsg : MsgWithMeta := { role := .user, content := text }
    let placeholder : MsgWithMeta :=
      { role := .assistant, content := "", loading := true }
    let history := (s.messages ++ [userMsg]).map toMessage
    ({ s with
        messages := s.messages ++ [userMsg, placeholder],
        input := "",
        streaming := true,
        startTime := now,
        tokenCount := 0,
        inference := initialInference s.model },
      some { model := s.model, messages := history, temperature := s.temp })

/-! ## Claim C4: send preconditions and mutual exclusion -/

/-- Claim C4: invoking sendMessage with an input that is empty after
trimming, or while a turn is already in flight, is a no-op: the state
(transcript, input text, telemetry record, in-flight flag, shared refs)
is returned unchanged and no HTTP request is issued.  In particular a
second send during an active turn issues no second request, so at most
one ChatTurn is ever in flight per client instance. -/
theorem sendMessage_noop (now : ℚ) (s : AppState)
    (h : jsTrim s.input = "" ∨ s.streaming = true) :
    sendMessage now s = (s, none) := by
  rcases h with h | h
  · simp [sendMessage, h]
  · simp [sendMessage, h]

/-- An App state with a turn already in flight. -/
def busyState : AppState :=
  { messages := [], input := "hello", streaming := true,
    inference := idleInference, startTime := 0, tokenCount := 0,
    model := "ai4all/llama3", temp := 7 / 10 }

/-- Witness for claim C4: a state with a turn in flight ignores a second
send call entirely. -/
theorem sendMessage_noop_witness :
    sendMessage 1000 busyState = (busyState, none) :=
  sendMessage_noop 1000 busyState (Or.inr rfl)

/-! ## The turn loop: token consumer and wall-clock ticker -/

/-- Replace the last element of a list, as the assignment
`next[next.length - 1] := m` on a copy of the transcript does. -/
def updateLast {α : Type} : List α → α → List α
  | [], _ => []
  | [_], a => [a]
  | x :: y :: rest, a => x :: updateLast (y :: rest) a

/-- The local variables of one `sendMessage` turn body. -/
structure TurnLocals where
  fullContent : String
  firstToken : Bool
deriving DecidableEq

/-- Fresh locals at the top of the `try` block. -/
def initLocals : TurnLocals :=
  { fullContent := "", firstToken := true }

/-- One suspension-point event inside a turn: either the decoder yields a
token or the 200 ms ticker fires; `now` is the `Date.now()` reading of
that moment in milliseconds. -/
inductive TurnEvent
  | token (tok : String) (now : ℚ)
  | tick (now : ℚ)
deriving DecidableEq

/-- The tokens carried by a list of turn events, in order. -/
def tokensOf : List TurnEvent → List String
  | [] => []
  | .token t _ :: rest => t :: tokensOf rest
  | .tick _ :: rest => tokensOf rest

/-- One step of the cooperative event loop during a turn.

Token arrival (App.tsx lines 538 to 564): append to `fullContent`,
increment the shared `tokenCountRef`, on the first token publish phase
`generating`, then recompute elapsed time and throughput from the shared
counter and publish the telemetry record with phase `thinking` below 3
tokens and `generating` from the third on, and mirror the accumulated
content into the trailing transcript entry.

Ticker (App.tsx lines 505 to 516): if the telemetry record is inactive do
nothing, else recompute elapsed time and throughput from the same shared
counter and republish only those two fields. -/
def turnStep : AppState × TurnLocals → TurnEvent → AppState × TurnLocals
  | (s, l), .token tok now =>
    let fullContent := l.fullContent ++ tok
    let count := s.tokenCount + 1
    let s1 := { s with tokenCount := count }
    let s2 :=
      if l.firstToken then
        { s1 with inference := { s1.inference with phase := .generating } }
      else s1
    let elapsed := (now - s2.startTime) / 1000
    let tps := if elapsed > 0 then (count : ℚ) / elapsed else 0
    let s3 :=
      { s2 with inference :=
        { s2.inference with
            active := true, tokensGenerated := count, tokensPerSec := tps,
            elapsedSec := elapsed,
            phase := if count < 3 then .thinking else .generating } }
    let shown : MsgWithMeta :=
      { role := .assistant, content := fullContent, loading := false }
    let s4 := { s3 with messages := updateLast s3.messages shown }
    (s4, { fullContent := fullContent, firstToken := false })
  | (s, l), .tick now =>
    if s.inference.active = false then (s, l)
    else
      let elapsed := (now - s.startTime) / 1000
      let tps := if elapsed > 0 then (s.tokenCount : ℚ) / elapsed else 0
      ({ s with inference :=
        { s.inference with elapsedSec := elapsed, tokensPerSec := tps } }, l)

/-- Folding the turn loop over an event sequence. -/
def runTurn (p : AppState × TurnLocals) (events : List TurnEvent) :
    AppState × TurnLocals :=
  events.foldl turnStep p

/-- Normal completion of a turn (App.tsx lines 566 to 579 and the
`finally` block): compute the final elapsed time and throughput from the
shared refs, replace the trailing transcript entry with the accumulated
content and the final metadata snapshot, then release the in-flight flag
and deactivate the telemetry record. -/
def finalizeTurn (model : String) (endNow : ℚ) (p : AppState × TurnLocals) :
    AppState :=
  let s := p.1
  let elapsed := (endNow - s.startTime) / 1000
  let tps := if elapsed > 0 then (s.tokenCount : ℚ) / elapsed else 0
  let metaSnap : MsgMeta :=
    { tokensGenerated := s.tokenCount, tokensPerSec := tps,
      elapsedSec := elapsed, model := model }
  let finalMsg : MsgWithMeta :=
    { role := .assistant, content := p.2.fullContent, loading := false,
      meta := some metaSnap }
  let s1 := { s with messages := updateLast s.messages finalMsg }
  { s1 with streaming := false, inference := { s1.inference with active := false } }

/-- Failure of a turn (the `catch` and `finally` blocks of App.tsx lines
581 to 596): the trailing transcript entry becomes a user-visible error
message built from the failure message, no metadata snapshot is attached,
the in-flight flag is released and the telemetry record deactivated. -/
def failTurn (errMsg : String) (p : AppState × TurnLocals) : AppState :=
  let s := p.1
  let errShown : MsgWithMeta :=
    { role := .assistant,
      content := "❌ **Fehler:** " ++ errMsg ++
        "\n\nStelle sicher, dass Ollama läuft: `ollama serve`",
      loading := false }
  let s1 := { s with messages := updateLast s.messages errShown }
  { s1 with streaming := false, inference := { s1.inference with active := false } }

/-- The phase published after `k` tokens of a turn have been processed. -/
def phaseFor (k : Nat) : Phase :=
  if k = 0 then .loading else if k < 3 then .thinking else .generating

/-- Coherence of an in-turn state with the token list processed so far:
the shared counter equals the number of tokens, the accumulated content
is their concatenation in order, the published telemetry reads the shared
counter, the published phase follows `phaseFor`, the published throughput
is recomputed from the published counter and elapsed time, and the
transcript is non-empty. -/
def TurnCoherent (p : AppState × TurnLocals) (toks : List String) : Prop :=
  p.1.tokenCount = toks.length ∧
  p.2.fullContent = String.join toks ∧
  p.1.inference.tokensGenerated = toks.length ∧
  p.1.inference.phase = phaseFor toks.length ∧
  p.1.inference.tokensPerSec =
    (if p.1.inference.elapsedSec > 0 then
      (toks.length : ℚ) / p.1.inference.elapsedSec else 0) ∧
  p.1.messages ≠ []

theorem updateLast_ne_nil {α : Type} (a : α) :
    ∀ xs : List α, xs ≠ [] → updateLast xs a ≠ [] := by
  intro xs h
  match xs with
  | [] => exact absurd rfl h
  | [x] => simp [updateLast]
  | x :: y :: rest => simp [updateLast]

theorem updateLast_getLast {α : Type} (a : α) :
    ∀ xs : List α, xs ≠ [] → (updateLast xs a).getLast? = some a := by
  intro xs h
  match xs with
  | [] => exact absurd rfl h
  | [x] => simp [updateLast]
  | x :: y :: rest =>
    have ih := updateLast_getLast a (y :: rest) (by simp)
    show (x :: updateLast (y :: rest) a).getLast? = some a
    cases hshape : updateLast (y :: rest) a with
    | nil => exact absurd hshape (updateLast_ne_nil a (y :: rest) (by simp))
    | cons b t =>
      rw [hshape] at ih
      rw [List.getLast?_cons_cons]
      exact ih

theorem turnStep_coherent (p : AppState × TurnLocals) (toks : List String)
    (e : TurnEvent) (h : TurnCoherent p toks) :
    TurnCoherent (turnStep p e) (toks ++ tokensOf [e]) := by
  obtain ⟨h1, h2, h3, h4, h5, h6⟩ := h
  cases e with
  | token t now =>
    by_cases hf : p.2.firstToken
    · simp [turnStep, tokensOf, TurnCoherent, hf, h1, h2, h3, h4, h5,
        phaseFor, String.join, updateLast_ne_nil _ _ h6, Nat.succ_ne_zero]
    · simp [turnStep, tokensOf, TurnCoherent, hf, h1, h2, h3, h4, h5,
        phaseFor, String.join, updateLast_ne_nil _ _ h6, Nat.succ_ne_zero]
  | tick now =>
    by_cases ha : p.1.inference.active = false
    · simpa [turnStep, tokensOf, ha] using ⟨h1, h2, h3, h4, h5, h6⟩
    · simp [turnStep, tokensOf, TurnCoherent, ha, h1, h2, h3, h4, h5, h6]

theorem tokensOf_cons (e : TurnEvent) (es : List TurnEvent) :
    tokensOf (e :: es) = tokensOf [e] ++ tokensOf es := by
  cases e <;> simp [tokensOf]

theorem runTurn_coherent :
    ∀ (events : List TurnEvent) (p : AppState × TurnLocals)
      (toks : List String), TurnCoherent p toks →
      TurnCoherent (runTurn p events) (toks ++ tokensOf events) := by
  intro events
  induction events with
  | nil =>
    intro p toks h
    simpa [runTurn, tokensOf] using h
  | cons e es ih =>
    intro p toks h
    have hstep := turnStep_coherent p toks e h
    have hrest := ih (turnStep p e) (toks ++ tokensOf [e]) hstep
    rw [tokensOf_cons, ← List.append_assoc]
    exact hrest

theorem sendMessage_coherent (now : ℚ) (s : AppState)
    (h1 : jsTrim s.input ≠ "") (h2 : s.streaming = false) :
    TurnCoherent ((sendMessage now s).1, initLocals) [] := by
  refine ⟨?_, ?_, ?_, ?_, ?_, ?_⟩ <;>
    simp [sendMessage, h1, h2, TurnCoherent, initLocals, initialInference,
      phaseFor, String.join]

/-- The state evolution of one turn: start from the state `sendMessage`
leaves behind and fold the token and ticker events over it. -/
def turnRun (now : ℚ) (s : AppState) (events : List TurnEvent) :
    AppState × TurnLocals :=
  runTurn ((sendMessage now s).1, initLocals) events

/-- The metadata snapshot `finalizeTurn` computes from the shared refs. -/
def finalSnapshot (model : String) (endNow : ℚ)
    (p : AppState × TurnLocals) : MsgMeta :=
  { tokensGenerated := p.1.tokenCount,
    tokensPerSec :=
      if (endNow - p.1.startTime) / 1000 > 0 then
        (p.1.tokenCount : ℚ) / ((endNow - p.1.startTime) / 1000)
      else 0,
    elapsedSec := (endNow - p.1.startTime) / 1000,
    model := model }

/-- The transcript entry `finalizeTurn` writes last. -/
def finalMessage (model : String) (endNow : ℚ)
    (p : AppState × TurnLocals) : MsgWithMeta :=
  { role := .assistant, content := p.2.fullContent, loading := false,
    meta := some (finalSnapshot model endNow p) }

/-- The final transcript entry written by `finalizeTurn`: the accumulated
content with the metadata snapshot computed from the shared refs. -/
theorem finalizeTurn_meta (model : String) (endNow : ℚ)
    (p : AppState × TurnLocals) (h : p.1.messages ≠ []) :
    (finalizeTurn model endNow p).messages.getLast? =
      some (finalMessage model endNow p) := by
  simp [finalizeTurn, finalMessage, finalSnapshot, updateLast_getLast _ _ h]

/-! ## Claim C7: phase progression per turn -/

/-- Claim C7: a send initiates the telemetry record with phase `loading`;
after the events of the turn have been processed, the published phase is
`thinking` while fewer than 3 tokens have arrived and `generating` from
the third on (`phaseFor`), regardless of how ticker events interleave;
every token is appended to the accumulated assistant content in decoder
order, and each token increments the shared counter by exactly one, so
counter and published token count both equal the number of processed
tokens. -/
theorem sendMessage_phase_progression (s : AppState) (now : ℚ)
    (events : List TurnEvent)
    (h1 : jsTrim s.input ≠ "") (h2 : s.streaming = false) :
    (sendMessage now s).1.inference.phase = Phase.loading ∧
    (turnRun now s events).1.inference.phase =
      phaseFor (tokensOf events).length ∧
    (turnRun now s events).2.fullContent = String.join (tokensOf events) ∧
    (turnRun now s events).1.tokenCount = (tokensOf events).length ∧
    (turnRun now s events).1.inference.tokensGenerated =
      (tokensOf events).length := by
  have h0 := sendMessage_coherent now s h1 h2
  have hr : TurnCoherent (turnRun now s events) (tokensOf events) := by
    simpa only [turnRun, List.nil_append] using runTurn_coherent events _ [] h0
  obtain ⟨c1, c2, c3, c4, c5, c6⟩ := hr
  exact ⟨h0.2.2.2.1.trans rfl, c4, c2, c1, c3⟩

/-- An App state ready to send: non-blank input, no turn in flight. -/
def readyState : AppState :=
  { messages := [], input := "hello", streaming := false,
    inference := idleInference, startTime := 0, tokenCount := 0,
    model := "ai4all/llama3", temp := 7 / 10 }

/-- A concrete event interleaving: three tokens with a ticker tick in
between. -/
def sampleEvents : List TurnEvent :=
  [.token "Das" 400, .tick 600, .token " ist" 800, .token " gut" 1200]

/-- Witness for claim C7: after the third token the published phase is
`generating`, the content is the in-order concatenation, and the counter
reads 3. -/
theorem sendMessage_phase_progression_witness :
    (turnRun 0 readyState sampleEvents).1.inference.phase =
        Phase.generating ∧
      (turnRun 0 readyState sampleEvents).2.fullContent = "Das ist gut" ∧
      (turnRun 0 readyState sampleEvents).1.tokenCount = 3 := by
  have h := sendMessage_phase_progression readyState 0 sampleEvents
    (by decide) rfl
  exact ⟨h.2.1.trans rfl, h.2.2.1.trans rfl, h.2.2.2.1.trans rfl⟩

/-! ## Claim C8: throughput convergence via one shared counter -/

/-- Claim C8: both producers (token consumer and ticker) derive elapsed
time and throughput from the one shared counter and the one shared
wall-clock reference held in the App state, so after any interleaving of
token and ticker events the published telemetry satisfies
`tokensPerSec = tokensGenerated / elapsedSec` whenever `elapsedSec > 0`
(and `0` when `elapsedSec = 0`), the published token count equals the
shared counter, and the final metadata snapshot attached at turn
completion satisfies the same equation exactly (the model computes over
rationals, so the floating-point tolerance of the claim is exact
equality here). -/
theorem throughput_convergence (s : AppState) (now endNow : ℚ)
    (events : List TurnEvent)
    (h1 : jsTrim s.input ≠ "") (h2 : s.streaming = false) :
    ((turnRun now s events).1.inference.tokensGenerated =
      (turnRun now s events).1.tokenCount) ∧
    ((turnRun now s events).1.inference.elapsedSec > 0 →
      (turnRun now s events).1.inference.tokensPerSec =
        ((turnRun now s events).1.inference.tokensGenerated : ℚ) /
          (turnRun now s events).1.inference.elapsedSec) ∧
    ((turnRun now s events).1.inference.elapsedSec = 0 →
      (turnRun now s events).1.inference.tokensPerSec = 0) ∧
    ∃ m mm,
      (finalizeTurn s.model endNow (turnRun now s events)).messages.getLast? =
          some m ∧
        m.meta = some mm ∧
        mm.tokensGenerated = (turnRun now s events).1.tokenCount ∧
        (mm.elapsedSec > 0 →
          mm.tokensPerSec = (mm.tokensGenerated : ℚ) / mm.elapsedSec) ∧
        (mm.elapsedSec = 0 → mm.tokensPerSec = 0) := by
  have h0 := sendMessage_coherent now s h1 h2
  have hr : TurnCoherent (turnRun now s events) (tokensOf events) := by
    simpa only [turnRun, List.nil_append] using runTurn_coherent events _ [] h0
  obtain ⟨c1, c2, c3, c4, c5, c6⟩ := hr
  refine ⟨c3.trans c1.symm, ?_, ?_, ?_⟩
  · intro hpos
    rw [c5, if_pos hpos, c3]
  · intro hz
    rw [c5, hz]
    simp
  · refine ⟨finalMessage s.model endNow (turnRun now s events),
      finalSnapshot s.model endNow (turnRun now s events),
      finalizeTurn_meta s.model endNow _ c6, rfl, rfl, ?_, ?_⟩
    · intro hpos
      simp only [finalSnapshot] at hpos ⊢
      rw [if_pos hpos]
    · intro hz
      simp only [finalSnapshot] at hz ⊢
      rw [hz]
      simp

/-- Witness for claim C8: one token arriving one second in gives a
published throughput equal to published count over published elapsed
time. -/
theorem throughput_convergence_witness :
    (turnRun 0 readyState [TurnEvent.token "a" 1000]).1.inference.tokensPerSec =
      ((turnRun 0 readyState
          [TurnEvent.token "a" 1000]).1.inference.tokensGenerated : ℚ) /
        (turnRun 0 readyState [TurnEvent.token "a" 1000]).1.inference.elapsedSec := by
  refine (throughput_convergence readyState 0 2000 [TurnEvent.token "a" 1000]
    (by decide) rfl).2.1 ?_
  have hguard : ¬(jsTrim readyState.input = "" ∨ readyState.streaming = true) := by
    decide
  have hel : (turnRun 0 readyState
      [TurnEvent.token "a" 1000]).1.inference.elapsedSec = (1000 - 0) / 1000 := by
    simp [turnRun, runTurn, turnStep, sendMessage, hguard, initLocals,
      initialInference]
  rw [hel]
  norm_num

/-! ## Claim C10: stream end without sentinel is a normal completion -/

/-- Claim C10: if the HTTP response is ok and the byte stream runs out
without the `[DONE]` sentinel ever appearing, the decoding loop simply
ends (the `break` on `done` in src/api.ts line 67) and streamChat
completes normally with the decoded tokens instead of failing; the
orchestrator then treats the turn as a normal completion: it keeps the
accumulated text, clears the loading flag, attaches a final metadata
snapshot carrying the token count and the model id, releases the
in-flight flag and deactivates the telemetry record. -/
theorem stream_end_without_sentinel (parse : ParseFn) (r : HttpResponse)
    (chunks : List String) (s : AppState) (now endNow : ℚ)
    (events : List TurnEvent)
    (hok : r.ok = true)
    (hns : ∀ c ∈ chunks, ∀ l ∈ jsSplitLines c, isSentinel l = false)
    (h1 : jsTrim s.input ≠ "") (h2 : s.streaming = false)
    (hev : tokensOf events = streamChatChunks parse chunks) :
    streamChat parse r chunks = .ok (streamChatChunks parse chunks) ∧
    (finalizeTurn s.model endNow (turnRun now s events)).streaming = false ∧
    (finalizeTurn s.model endNow (turnRun now s events)).inference.active =
      false ∧
    ∃ m, (finalizeTurn s.model endNow
        (turnRun now s events)).messages.getLast? = some m ∧
      m.loading = false ∧
      m.content = String.join (streamChatChunks parse chunks) ∧
      ∃ mm, m.meta = some mm ∧
        mm.tokensGenerated = (streamChatChunks parse chunks).length ∧
        mm.model = s.model := by
  have h0 := sendMessage_coherent now s h1 h2
  have hr : TurnCoherent (turnRun now s events) (tokensOf events) := by
    simpa only [turnRun, List.nil_append] using runTurn_coherent events _ [] h0
  obtain ⟨c1, c2, c3, c4, c5, c6⟩ := hr
  refine ⟨by simp [streamChat, hok], by simp [finalizeTurn],
    by simp [finalizeTurn], ?_⟩
  refine ⟨finalMessage s.model endNow (turnRun now s events),
    finalizeTurn_meta s.model endNow _ c6, rfl, ?_, ?_⟩
  · show (turnRun now s events).2.fullContent = _
    rw [c2, hev]
  · refine ⟨finalSnapshot s.model endNow (turnRun now s events), rfl, ?_, rfl⟩
    show (turnRun now s events).1.tokenCount = _
    rw [c1, hev]

/-- The single-chunk event stream of spec scenario 1 before its
sentinel: one well-formed event and no `[DONE]` line. -/
def chunksHi : List String := ["data: " ++ jsonHi ++ "\n"]

/-- An ok response whose body is not inspected on the success path. -/
def okResponse : HttpResponse :=
  { ok := true, statusText := "OK", body := none }

/-- Witness for claim C10: the sentinel-free stream `chunksHi` completes
normally with the single token `Hi`. -/
theorem stream_end_without_sentinel_witness :
    streamChat parseHi okResponse chunksHi = .ok ["Hi"] :=
  ((stream_end_without_sentinel parseHi okResponse chunksHi readyState 0 1000
    [TurnEvent.token "Hi" 500] rfl (by decide) (by decide) rfl rfl).1).trans
    rfl

/-! ## Session identity and starter-grant protocol (App.tsx initial
effect and claimStarterTokens) -/

/-- Outcome of one `claimStarterTokens` round trip as the client observes
it: the server reported the grant issued, the server answered without the
grant, or the request failed outright (network error or thrown
rejection, the `catch` branch). -/
inductive GrantResponse
  | granted
  | notGranted
  | failed
deriving DecidableEq

/-- Observable effect of one load of the starter-grant flow: the
permanent claimed flag afterwards, the session ids of the grant requests
issued, whether the one-time welcome notice was shown, and whether the
delayed balance refresh was scheduled. -/
structure GrantOutcome where
  claimed : Bool
  requests : List String
  showWelcome : Bool
  refreshScheduled : Bool
deriving DecidableEq

/-- The starter-grant flow of the initial effect (App.tsx lines 470 to
481) together with `claimStarterTokens` (lines 70 to 77): read the
permanent `ai4all_tokens_claimed` flag; if it is set do nothing at all;
otherwise post exactly one grant request carrying the session id, and
only when the response reports `granted` set the permanent flag, show
the welcome notice and schedule the delayed balance refresh; a
not-granted response or a failed request changes nothing, leaving the
flag unset for a retry on a later load. -/
def claimStarterFlow (claimed : Bool) (sessionId : String)
    (resp : GrantResponse) : GrantOutcome :=
  if claimed then
    { claimed := true, requests := [], showWelcome := false,
      refreshScheduled := false }
  else
    match resp with
    | .granted =>
      { claimed := true, requests := [sessionId], showWelcome := true,
        refreshScheduled := true }
    | .notGranted =>
      { claimed := false, requests := [sessionId], showWelcome := false,
        refreshScheduled := false }
    | .failed =>
      { claimed := false, requests := [sessionId], showWelcome := false,
        refreshScheduled := false }

/-- Claim C5: grant idempotence and failure atomicity.  When the
permanent claimed flag is set the flow performs zero network calls and
changes nothing; when it is unset the flow issues exactly one request
carrying the session id, and the flag is set (with the one-time notice
and the delayed balance refresh) exactly when the server reports the
grant issued, so a failed or refused request leaves the flag unset for a
later retry; and a set flag is never reset, so the flag goes from
unclaimed to claimed at most once. -/
theorem claimStarterFlow_once (claimed : Bool) (sessionId : String)
    (resp : GrantResponse) :
    (claimed = true →
      claimStarterFlow claimed sessionId resp =
        { claimed := true, requests := [], showWelcome := false,
          refreshScheduled := false }) ∧
    (claimed = false →
      (claimStarterFlow claimed sessionId resp).requests = [sessionId]) ∧
    (claimed = false →
      ((claimStarterFlow claimed sessionId resp).claimed = true ↔
        resp = .granted)) ∧
    (claimed = false →
      ((claimStarterFlow claimed sessionId resp).showWelcome = true ↔
        resp = .granted)) ∧
    (claimed = false →
      ((claimStarterFlow claimed sessionId resp).refreshScheduled = true ↔
        resp = .granted)) ∧
    ((claimStarterFlow claimed sessionId resp).claimed = false →
      claimed = false) := by
  cases claimed <;> cases resp <;> simp [claimStarterFlow]

/-- Witness for claim C5 at spec scenario 5: with the flag already set,
even a granted response produces zero requests and no state change. -/
theorem claimStarterFlow_once_witness :
    claimStarterFlow true "session-1" .granted =
      { claimed := true, requests := [], showWelcome := false,
        refreshScheduled := false } :=
  (claimStarterFlow_once true "session-1" .granted).1 rfl

/-! ## Resource polling (App.tsx refreshStatus and the stats effect) -/

/-- Node status payload (src/api.ts interface NodeStatus). -/
structure NodeStatus where
  version : String
  peer_count : Int
  node_id : String
  balance : ℚ
deriving DecidableEq

/-- Token balance payload (src/api.ts interface TokenBalance). -/
structure TokenBalance where
  node_id : String
  balance : ℚ
  earned_total : ℚ
  spent_total : ℚ
deriving DecidableEq

/-- One GPU device of the GPU status payload (webui api interface
GpuDevice). -/
structure GpuDevice where
  index : Int
  vendor : String
  name : String
  vram_gb : ℚ
  vram_free_gb : ℚ
  utilization_pct : Option ℚ
  compute_capability : Option String
deriving DecidableEq

/-- GPU status payload (webui api interface GpuStatus). -/
structure GpuStatus where
  backend : String
  available : Bool
  devices : List GpuDevice
deriving DecidableEq

/-- One GPU row of the system stats payload (App.tsx SystemStats). -/
structure StatsGpu where
  index : Int
  name : String
  vendor : String
  util_pct : ℚ
  vram_used : ℚ
  vram_total : ℚ
  temp_c : Option ℚ
deriving DecidableEq

/-- System stats payload (App.tsx interface SystemStats). -/
structure SystemStats where
  cpu_pct : ℚ
  ram_pct : ℚ
  ram_used_gb : ℚ
  ram_total_gb : ℚ
  gpu : List StatsGpu
deriving DecidableEq

/-- The published values of the four polled resources (the `status`,
`tokens`, `gpu` and `stats` states of App); `none` is the cleared
"unavailable" value. -/
structure StatusState where
  status : Option NodeStatus
  tokens : Option TokenBalance
  gpu : Option GpuStatus
  stats : Option SystemStats
deriving DecidableEq

/-- One round of `refreshStatus` (App.tsx lines 494 to 498), given the
result of each fetch (`none` models a rejected promise): a failing node
status fetch publishes `null`, while failing token-balance and GPU
fetches are swallowed by an empty `catch`, keeping the previously
published value. -/
def refreshStatus (rNode : Option NodeStatus) (rTok : Option TokenBalance)
    (rGpu : Option GpuStatus) (s : StatusState) : StatusState :=
  { s with
    status :=
      match rNode with
      | some v => some v
      | none => none,
    tokens :=
      match rTok with
      | some v => some v
      | none => s.tokens,
    gpu :=
      match rGpu with
      | some v => some v
      | none => s.gpu }

/-- One tick of the system-stats poll (App.tsx lines 487 to 492): a
resolved fetch publishes the stats, a rejected one is swallowed by the
empty `catch`, keeping the previous value. -/
def pollSystemStats (r : Option SystemStats) (s : StatusState) : StatusState :=
  { s with stats :=
      match r with
      | some v => some v
      | none => s.stats }

/-- Folding the stats poll over a list of scheduled tick results. -/
def runStatsTicks (rs : List (Option SystemStats)) (s : StatusState) :
    StatusState :=
  rs.foldl (fun st r => pollSystemStats r st) s

/-- A concrete token balance. -/
def sampleBalance : TokenBalance :=
  { node_id := "node-1", balance := 10, earned_total := 10, spent_total := 0 }

/-- A status state that has already published a token balance. -/
def sampleStatus : StatusState :=
  { status := none, tokens := some sampleBalance, gpu := none, stats := none }

/-- Claim C6 fails on the code as stated: a failing token-balance fetch
does not publish the cleared unavailable value; the empty `catch` of
`fetchTokenBalance().then(setTokens).catch(() => \x7b\x7d)` keeps the
previously published balance instead of clearing it to `null` (App.tsx
line 496), and the GPU and system-stats resources behave the same way.
Only the node-status resource publishes `null` on failure. -/
theorem refreshStatus_keeps_stale_balance :
    (refreshStatus none none none sampleStatus).tokens = some sampleBalance ∧
      some sampleBalance ≠ (none : Option TokenBalance) := by
  exact ⟨rfl, by simp⟩

/-- Claim C6 as amended: a failing fetch never throws to a caller and
never stops any schedule; the node-status resource publishes the cleared
`null` value on failure, while the token-balance, GPU and system-stats
resources keep their previously published value on failure; each
resource's published value depends only on its own fetch result and its
own previous value, so a GPU endpoint that always throws has zero effect
on node status, balance, stats or the chat turn; and after arbitrarily
many failed stats ticks a later successful tick still publishes, since
the schedule keeps running. -/
theorem refreshStatus_isolation (rNode : Option NodeStatus)
    (rTok : Option TokenBalance) (rGpu : Option GpuStatus)
    (rStats : Option SystemStats) (s : StatusState) :
    ((rNode = none →
      (pollSystemStats rStats (refreshStatus rNode rTok rGpu s)).status =
        none) ∧
    (∀ v, rNode = some v →
      (pollSystemStats rStats (refreshStatus rNode rTok rGpu s)).status =
        some v)) ∧
    ((rTok = none →
      (pollSystemStats rStats (refreshStatus rNode rTok rGpu s)).tokens =
        s.tokens) ∧
    (∀ v, rTok = some v →
      (pollSystemStats rStats (refreshStatus rNode rTok rGpu s)).tokens =
        some v)) ∧
    ((rGpu = none →
      (pollSystemStats rStats (refreshStatus rNode rTok rGpu s)).gpu =
        s.gpu) ∧
    (∀ v, rGpu = some v →
      (pollSystemStats rStats (refreshStatus rNode rTok rGpu s)).gpu =
        some v)) ∧
    ((rStats = none →
      (pollSystemStats rStats (refreshStatus rNode rTok rGpu s)).stats =
        s.stats) ∧
    (∀ v, rStats = some v →
      (pollSystemStats rStats (refreshStatus rNode rTok rGpu s)).stats =
        some v)) ∧
    (∀ rGpu' : Option GpuStatus,
      (refreshStatus rNode rTok rGpu' s).status =
          (refreshStatus rNode rTok rGpu s).status ∧
        (refreshStatus rNode rTok rGpu' s).tokens =
          (refreshStatus rNode rTok rGpu s).tokens ∧
        (refreshStatus rNode rTok rGpu' s).stats =
          (refreshStatus rNode rTok rGpu s).stats) ∧
    (∀ (fails : List (Option SystemStats)) (v : SystemStats),
      (runStatsTicks (fails ++ [some v]) s).stats = some v) := by
  refine ⟨⟨?_, ?_⟩, ⟨?_, ?_⟩, ⟨?_, ?_⟩, ⟨?_, ?_⟩, ?_, ?_⟩
  · intro h
    simp [pollSystemStats, refreshStatus, h]
  · intro v h
    simp [pollSystemStats, refreshStatus, h]
  · intro h
    simp [pollSystemStats, refreshStatus, h]
  · intro v h
    simp [pollSystemStats, refreshStatus, h]
  · intro h
    simp [pollSystemStats, refreshStatus, h]
  · intro v h
    simp [pollSystemStats, refreshStatus, h]
  · intro h
    simp [pollSystemStats, refreshStatus, h]
  · intro v h
    simp [pollSystemStats, refreshStatus, h]
  · intro rGpu'
    refine ⟨rfl, rfl, rfl⟩
  · intro fails v
    rw [runStatsTicks, List.foldl_append]
    simp [pollSystemStats]

/-- Witness for claim C6 (amended form): a failing GPU fetch leaves the
previously published balance in place, and a failing node fetch clears
node status. -/
theorem refreshStatus_isolation_witness :
    (pollSystemStats none
        (refreshStatus none (some sampleBalance) none sampleStatus)).tokens =
        some sampleBalance ∧
      (pollSystemStats none
        (refreshStatus none (some sampleBalance) none sampleStatus)).status =
        none :=
  ⟨((refreshStatus_isolation none (some sampleBalance) none none
      sampleStatus).2.1).2 sampleBalance rfl,
    ((refreshStatus_isolation none (some sampleBalance) none none
      sampleStatus).1).1 rfl⟩

/-! ## Claim C9: runtime interval change of the stats poll -/

/-- The cadence of the system-stats poll: 2000 ms while the detail panel
is open, 8000 ms while it is closed (App.tsx line 490). -/
def statsInterval (statsOpen : Bool) : Nat :=
  if statsOpen then 2000 else 8000

/-- The fetch instants of one mounted registration of the stats effect
(App.tsx lines 487 to 492): `poll()` fires immediately at the mount
instant `start` and then every `interval` milliseconds, until the effect
cleanup at `stop` (exclusive) — `clearInterval` guarantees no tick of
this registration fires from the cleanup on. -/
def firesAt (start interval stop t : Nat) : Prop :=
  start ≤ t ∧ t < stop ∧ (t - start) % interval = 0

instance (start interval stop t : Nat) :
    Decidable (firesAt start interval stop t) := by
  unfold firesAt
  infer_instance

/-- The fetch instants of the stats resource across one toggle of the
detail panel: the registration mounted at `T0` with panel state `o` is
cleaned up when the panel toggles at `T1` and the effect re-runs, so the
remounted registration starts at `T1` with the flipped panel state. -/
def toggledFires (T0 T1 : Nat) (o : Bool) (t : Nat) : Prop :=
  firesAt T0 (statsInterval o) T1 t ∨
    (T1 ≤ t ∧ (t - T1) % statsInterval (!o) = 0)

instance (T0 T1 : Nat) (o : Bool) (t : Nat) :
    Decidable (toggledFires T0 T1 o t) := by
  unfold toggledFires
  infer_instance

/-- Claim C9: toggling the detail panel mid-session changes the stats
cadence on the very next scheduling decision without duplicating or
dropping a fetch.  In the model: the remounted effect fetches immediately
at the toggle instant; from the toggle on the fetch instants are exactly
the new cadence; before the toggle they are exactly the old cadence, so
no already-scheduled fetch is retroactively added or dropped; no instant
fires under both registrations, so no fetch is duplicated; and a fetch
already in flight at the toggle still publishes when it resolves, because
the promise continuation `.then(setStats)` is not cancelled by
`clearInterval` — its completion applies `pollSystemStats` regardless of
the timer state. -/
theorem stats_interval_toggle (T0 T1 : Nat) (o : Bool) :
    toggledFires T0 T1 o T1 ∧
    (∀ t, T1 ≤ t →
      (toggledFires T0 T1 o t ↔ (t - T1) % statsInterval (!o) = 0)) ∧
    (∀ t, t < T1 →
      (toggledFires T0 T1 o t ↔ firesAt T0 (statsInterval o) T1 t)) ∧
    (∀ t, ¬(firesAt T0 (statsInterval o) T1 t ∧
      T1 ≤ t ∧ (t - T1) % statsInterval (!o) = 0)) ∧
    (∀ (sOld : StatusState) (v : SystemStats),
      (pollSystemStats (some v) sOld).stats = some v) := by
  refine ⟨?_, ?_, ?_, ?_, ?_⟩
  · exact Or.inr ⟨le_refl T1, by simp⟩
  · intro t ht
    constructor
    · intro hf
      rcases hf with hf | hf
      · exact absurd hf.2.1 (not_lt_of_le ht)
      · exact hf.2
    · intro hm
      exact Or.inr ⟨ht, hm⟩
  · intro t ht
    constructor
    · intro hf
      rcases hf with hf | hf
      · exact hf
      · exact absurd ht (not_lt_of_le hf.1)
    · intro hf
      exact Or.inl hf
  · intro t hboth
    exact absurd hboth.1.2.1 (not_lt_of_le hboth.2.1)
  · intro sOld v
    rfl

/-- Witness for claim C9 at spec scenario 6: panel closed (8000 ms) from
time 0, toggled open at 3000; the resource fetches at the toggle instant
and then at 5000 under the new 2000 ms cadence, while 8000 (the old
schedule) no longer fires. -/
theorem stats_interval_toggle_witness :
    toggledFires 0 3000 false 3000 ∧
      toggledFires 0 3000 false 5000 ∧
      ¬toggledFires 0 3000 false 8000 :=
  ⟨(stats_interval_toggle 0 3000 false).1,
    ((stats_interval_toggle 0 3000 false).2.1 5000 (by decide)).mpr (by decide),
    fun hf =>
      absurd (((stats_interval_toggle 0 3000 false).2.1 8000 (by decide)).mp hf)
        (by decide)⟩

end AI4All
